import Mathlib

namespace ERO

/-- JavaScript-like runtime values as they appear in raw API items: a field is
either absent-like (undefined/null), a scalar, or an object given by its fields. -/
inductive JsVal where
  | undefined
  | null
  | bool (b : Bool)
  | num (n : Int)
  | str (s : String)
  | obj (fields : List (String × JsVal))

/-- JS truthiness of a value, used by the source's bare conditionals. -/
def truthy : JsVal → Bool
  | .undefined => false
  | .null => false
  | .bool b => b
  | .num n => n != 0
  | .str s => s != ""
  | .obj _ => true

/-- Property lookup on an object field list (first binding wins, as JS objects
have at most one binding per key). -/
def objGet (fields : List (String × JsVal)) (k : String) : Option JsVal :=
  (fields.find? (fun p => p.1 == k)).map (fun p => p.2)

/-- A raw API record: a JS object given as its ordered field list. -/
abbrev RawItem := List (String × JsVal)

/-- Embedding of `normalizeDataItem`'s per-field step (src/src/main.js 163-174):
a field value that is a truthy object containing key `v` is replaced by that
`v` value; every other value is kept as is. -/
def normalizeField (v : JsVal) : JsVal :=
  match v with
  | .obj fs =>
    match objGet fs "v" with
    | some inner => inner
    | none => .obj fs
  | other => other

/-- Embedding of `normalizeDataItem` (src/src/main.js 163-174): rebuild the
object, unwrapping each field through `normalizeField`. -/
def normalizeDataItem (item : RawItem) : RawItem :=
  item.map (fun p => (p.1, normalizeField p.2))

/-- A field value of the wrapped shape, an object with key `v` (the shape
`normalizeDataItem` unwraps). -/
def isWrapped (v : JsVal) : Bool :=
  match v with
  | .obj fs => (objGet fs "v").isSome
  | _ => false

/-- The inner value of a wrapped field (the object's `v` binding). -/
def unwrapV (v : JsVal) : JsVal :=
  match v with
  | .obj fs => (objGet fs "v").getD (.obj fs)
  | other => other

/-- JS string coercion of a value used as an object property key, as in
`grouped[depot]` (src/src/main.js 187-190). -/
def jsKeyString : JsVal → String
  | .undefined => "undefined"
  | .null => "null"
  | .bool b => if b then "true" else "false"
  | .num n => toString n
  | .str s => s
  | .obj _ => "[object Object]"

/-- The `DEPOT` field of a normalized item; a missing key reads as
`undefined`, as in JS property access (src/src/main.js 180). -/
def depotOfN (n : RawItem) : JsVal :=
  (objGet n "DEPOT").getD .undefined

/-- JS runtime errors the embedded code can throw. -/
inductive JsErr where
  | typeErr (msg : String)
  | err (msg : String)
deriving DecidableEq, Repr

/-- The member names every plain JS object (the object literal at
src/src/main.js 177) inherits from `Object.prototype`; reading such a key on
a plain object with no own binding yields the inherited member, a truthy
function or object. -/
def objectProtoNames : List String :=
  ["constructor", "hasOwnProperty", "isPrototypeOf", "propertyIsEnumerable",
   "toLocaleString", "toString", "valueOf", "__proto__",
   "__defineGetter__", "__defineSetter__", "__lookupGetter__", "__lookupSetter__"]

/-- The own bucket stored under key `k` — the DepotGroup mapping held in the
grouped object's own properties. A read of `grouped[k]` on the real object
additionally falls through to `Object.prototype` when no own property
exists; `groupReadTruthy` models that part for the source's guard. -/
def groupLookup (g : List (String × List RawItem)) (k : String) : Option (List RawItem) :=
  (g.find? (fun p => p.1 == k)).map (fun p => p.2)

/-- Truthiness of the read `grouped[depot]` in `!grouped[depot]`
(src/src/main.js 187): an own bucket is an array, truthy; with no own
property the read yields the inherited `Object.prototype` member for the
names above, also truthy; any other absent key reads `undefined`, falsy. -/
def groupReadTruthy (g : List (String × List RawItem)) (k : String) : Bool :=
  (groupLookup g k).isSome || objectProtoNames.contains k

/-- `grouped[depot] = []` (src/src/main.js 188): add an own empty bucket;
string-keyed own properties keep insertion order, so the new bucket goes to
the end. -/
def bucketInit (g : List (String × List RawItem)) (k : String) :
    List (String × List RawItem) :=
  g ++ [(k, [])]

/-- Append to the own bucket of key `k`, leaving other buckets unchanged. -/
def bucketAppend : List (String × List RawItem) → String → RawItem →
    List (String × List RawItem)
  | [], _, _ => []
  | (k2, l) :: rest, k, n =>
    if k2 = k then (k2, l ++ [n]) :: rest
    else (k2, l) :: bucketAppend rest k n

/-- `grouped[depot].push(normalizedItem)` (src/src/main.js 190): with an own
bucket the push appends to that array; with no own bucket the read yields
the inherited `Object.prototype` member, which has no `push`, and the call
throws a TypeError. -/
def bucketPush (g : List (String × List RawItem)) (k : String) (n : RawItem) :
    Except JsErr (List (String × List RawItem)) :=
  if (groupLookup g k).isSome then .ok (bucketAppend g k n)
  else .error (.typeErr "grouped[depot].push is not a function")

/-- The loop of `groupByDepot` (src/src/main.js 176-195): normalize each
item, skip it (collecting it on the warn-log channel, the second component)
when its `DEPOT` value is falsy; otherwise run
`if (!grouped[depot]) grouped[depot] = []; grouped[depot].push(...)` under
the plain-object read semantics above — for a depot key naming an
`Object.prototype` member the guard sees a truthy inherited value, the
bucket is never initialized, and the push throws. -/
def groupGo : List RawItem → List (String × List RawItem) → List RawItem →
    Except JsErr (List (String × List RawItem) × List RawItem)
  | [], g, sk => .ok (g, sk)
  | item :: rest, g, sk =>
    let n := normalizeDataItem item
    if truthy (depotOfN n) then
      match bucketPush
          (if !(groupReadTruthy g (jsKeyString (depotOfN n)))
           then bucketInit g (jsKeyString (depotOfN n)) else g)
          (jsKeyString (depotOfN n)) n with
      | .ok g2 => groupGo rest g2 sk
      | .error e => .error e
    else groupGo rest g (sk ++ [item])

/-- Embedding of `groupByDepot` (src/src/main.js 176-195): run the loop from
an empty plain object; the result is the grouped own buckets plus the logged
skipped items, or the thrown TypeError. -/
def groupByDepot (dataArray : List RawItem) :
    Except JsErr (List (String × List RawItem) × List RawItem) :=
  groupGo dataArray [] []

/-- Reference step used in the proofs: append to the own bucket of key `k`,
creating it at the end when absent — the combined effect of the source's
init-plus-push for a depot key that does not name an `Object.prototype`
member (the bridge is lemma `groupStep_ok`). -/
def groupInsert : List (String × List RawItem) → String → RawItem → List (String × List RawItem)
  | [], k, it => [(k, [it])]
  | (k2, l) :: rest, k, it =>
    if k2 = k then (k2, l ++ [it]) :: rest
    else (k2, l) :: groupInsert rest k it

/-- The pure grouping fold over `groupInsert`; `groupGo` agrees with it
whenever no kept item's depot key names an `Object.prototype` member
(lemma `groupGo_eq_fold`). -/
def groupFold : List RawItem → List (String × List RawItem) → List RawItem →
    List (String × List RawItem) × List RawItem
  | [], g, sk => (g, sk)
  | item :: rest, g, sk =>
    let n := normalizeDataItem item
    if truthy (depotOfN n) then groupFold rest (groupInsert g (jsKeyString (depotOfN n)) n) sk
    else groupFold rest g (sk ++ [item])

/-- The normalized items of `arr` that `groupByDepot` keeps for key `k`:
truthy depot whose stringified key is `k`, in input order. -/
def keptFrom (k : String) (arr : List RawItem) : List RawItem :=
  (arr.map normalizeDataItem).filter
    (fun n => truthy (depotOfN n) && (jsKeyString (depotOfN n) == k))

/-- JS `x || d` for an optional string: `null`/`undefined` and the empty
string are falsy and fall back to the default. -/
def orDefaultStr (v : Option String) (d : String) : String :=
  match v with
  | some s => if s = "" then d else s
  | none => d

/-- The two fields of a work item the orchestration reads
(`roData.releaseOrderNumber`, `roData.ID`); `none` models a missing field. -/
structure WorkItem where
  ID : Option String
  releaseOrderNumber : Option String
deriving DecidableEq, Repr

/-- `roData.releaseOrderNumber || 'N/A'` (src/src/main.js 324). -/
def roNumberOf (it : WorkItem) : String :=
  orDefaultStr it.releaseOrderNumber "N/A"

/-- `roData.ID || '-1'` (src/src/main.js 325). -/
def roIDOf (it : WorkItem) : String :=
  orDefaultStr it.ID "-1"

/-- One entry of the success list (timestamps are wall-clock and omitted). -/
structure ResultRecord where
  depot : String
  releaseOrderID : String
  releaseOrderNumber : String
deriving DecidableEq, Repr

/-- One entry of the failed ledger (timestamps omitted). -/
structure FailedRecord where
  depot : String
  releaseOrderID : String
  releaseOrderNumber : String
  reason : String
deriving DecidableEq, Repr

/-- Parsed content of the failed file: running total plus entry list. -/
structure FailedFile where
  total : Nat
  data : List FailedRecord
deriving DecidableEq, Repr

/-- Embedding of `appendFailedToFile` (src/src/main.js 243-254): push the
entry and refresh the running total; file I/O is modeled as reliable (the
source swallows read/write errors). -/
def appendFailedToFile (f : FailedFile) (item : FailedRecord) : FailedFile :=
  { total := (f.data ++ [item]).length, data := f.data ++ [item] }

/-- Embedding of `getFailedROs` (src/src/main.js 256-265). -/
def getFailedROs (f : FailedFile) : List String :=
  f.data.map (fun r => r.releaseOrderNumber)

/-- The failed record built by `processReleaseOrder`/`processDepot`,
given the reason string. -/
def mkFailedRecord (depot : String) (it : WorkItem) (reason : String) : FailedRecord :=
  { depot := depot, releaseOrderID := roIDOf it,
    releaseOrderNumber := roNumberOf it, reason := reason }

/-- The success record pushed by `processReleaseOrder` (src/src/main.js 365-370). -/
def mkResultRecord (depot : String) (it : WorkItem) : ResultRecord :=
  { depot := depot, releaseOrderID := roIDOf it, releaseOrderNumber := roNumberOf it }

/-- The record `markRemainingAsFailed` appends (src/src/main.js 383-389). -/
def closedRecord (depot : String) (it : WorkItem) : FailedRecord :=
  mkFailedRecord depot it "Browser/Page closed unexpectedly"

/-- The record `processDepot` appends when no account exists for the depot
(src/src/main.js 401-407). -/
def noAccountRecord (depot : String) (it : WorkItem) : FailedRecord :=
  mkFailedRecord depot it "No account configured for depot"

/-- One popup container as `checkAndHandlePopup` inspects it: whether the
element exists, its computed display, and its message text. -/
structure PopupBox where
  present : Bool
  display : String
  message : String
deriving DecidableEq, Repr

/-- The page state `checkAndHandlePopup` reads: the three popup containers
(`#popup-Success`, `#popup-Error`, `#popup-Warn`). -/
structure PageAfter where
  success : PopupBox
  error : PopupBox
  warn : PopupBox
deriving DecidableEq, Repr

/-- A popup is visible when its element exists and its computed display is
`block` (src/src/main.js 119-121). -/
def popupVisible (b : PopupBox) : Bool :=
  b.present && (b.display == "block")

/-- The popup verdict strings returned by `checkAndHandlePopup`. -/
inductive Verdict where
  | success
  | error
  | warning
deriving DecidableEq, Repr

/-- Embedding of `checkAndHandlePopup` (src/src/main.js 115-161): check
success, then error, then warning; return the first visible popup's verdict,
or `none`. The message text is only logged and dismissal is best-effort, so
neither is part of the return value. -/
def checkAndHandlePopup (p : PageAfter) : Option Verdict :=
  if popupVisible p.success then some .success
  else if popupVisible p.error then some .error
  else if popupVisible p.warn then some .warning
  else none

/-- The environment's response to one `executeAction` call inside
`processReleaseOrder`: either the interpreter throws (with the error's
optional `message`), or it completes and the page is left in the given
popup state. -/
inductive StepBehavior where
  | throws (msg : Option String)
  | completes (page : PageAfter)
deriving DecidableEq, Repr

/-- One entry of `siteConfig.actions` paired with the behavior its execution
exhibits for the current item. -/
structure RoAction where
  typeAction : String
  behavior : StepBehavior
deriving DecidableEq, Repr

/-- The loop body of `processReleaseOrder` (src/src/main.js 329-352): skip
non-`roData` actions; a thrown error sets the failure reason to
`error.message || 'Action execution failed'`; an `error`/`warning` popup
verdict sets it to the string Popup error detected or Popup warning
detected; otherwise continue. Returns
`some reason` when the item failed, `none` when all actions passed. -/
def runRoActions : List RoAction → Option String
  | [] => none
  | a :: rest =>
    if a.typeAction = "roData" then
      match a.behavior with
      | .throws msg => some (orDefaultStr msg "Action execution failed")
      | .completes pg =>
        match checkAndHandlePopup pg with
        | some .error => some "Popup error detected"
        | some .warning => some "Popup warning detected"
        | _ => runRoActions rest
    else runRoActions rest

/-- Whether one action fails its item: the interpreter throws, or the popup
check yields an error or warning verdict. -/
def roStepFails (a : RoAction) : Bool :=
  match a.behavior with
  | .throws _ => true
  | .completes pg =>
    match checkAndHandlePopup pg with
    | some .error => true
    | some .warning => true
    | _ => false

/-- Embedding of `processReleaseOrder` (src/src/main.js 323-372): run the
`roData` actions; on failure append a failed record to the failed file, else
push a success record onto the success list. -/
def processReleaseOrder (acts : List RoAction) (item : WorkItem) (depot : String)
    (failedFile : FailedFile) (successList : List ResultRecord) :
    FailedFile × List ResultRecord :=
  match runRoActions acts with
  | some reason => (appendFailedToFile failedFile (mkFailedRecord depot item reason), successList)
  | none => (failedFile, successList ++ [mkResultRecord depot item])

/-- The per-item loop of `processDepot` (src/src/main.js 423-429): process
every work item of the depot in order, threading the failed file and the
success list. -/
def processItemsLoop : List (WorkItem × List RoAction) → String → FailedFile →
    List ResultRecord → FailedFile × List ResultRecord
  | [], _, f, s => (f, s)
  | (it, acts) :: rest, depot, f, s =>
    let r := processReleaseOrder acts it depot f s
    processItemsLoop rest depot r.1 r.2

/-- The loop of `markRemainingAsFailed` with the precomputed processed-key
set (src/src/main.js 380-393): append a browser-closed failed record for each
item whose release-order number is not in the set. -/
def markRemainingGo (depot : String) (processed : List String) :
    List WorkItem → FailedFile → FailedFile
  | [], f => f
  | it :: rest, f =>
    if processed.contains (roNumberOf it) then markRemainingGo depot processed rest f
    else markRemainingGo depot processed rest (appendFailedToFile f (closedRecord depot it))

/-- Embedding of `markRemainingAsFailed` (src/src/main.js 374-394): the
processed set is the success list's numbers plus the failed file's numbers,
computed once before the loop. -/
def markRemainingAsFailed (items : List WorkItem) (depot : String)
    (f : FailedFile) (s : List ResultRecord) : FailedFile :=
  markRemainingGo depot (s.map (fun r => r.releaseOrderNumber) ++ getFailedROs f) items f

/-- Observable events of one depot's pass through the cycle runner and
`processDepot`, in program order. -/
inductive DepotEvent where
  | ctxOpen
  | navigate (url : String)
  | loginPhase
  | appendFailed (r : FailedRecord)
  | pushSuccess (r : ResultRecord)
  | logoutClick
  | ctxClose
deriving DecidableEq, Repr

/-- Event projection of `processDepot` (src/src/main.js 396-434). With no
account for the depot, the function only appends a no-account failed record
per item and returns (src/src/main.js 398-411). With an account it navigates
to the site, runs the login phase, processes every item, and clicks logout. -/
def processDepotTrace (depot : String) (account : Option String) (url : String)
    (items : List (WorkItem × List RoAction)) : List DepotEvent :=
  match account with
  | none => items.map (fun p => .appendFailed (noAccountRecord depot p.1))
  | some _ =>
    [.navigate url, .loginPhase] ++
    items.map (fun p =>
      match runRoActions p.2 with
      | some r => DepotEvent.appendFailed (mkFailedRecord depot p.1 r)
      | none => DepotEvent.pushSuccess (mkResultRecord depot p.1)) ++
    [.logoutClick]

/-- Event projection of one depot iteration of `processAutomation`
(src/src/main.js 493-543): the cycle runner opens a fresh browsing context
and page for the depot before calling `processDepot`, and closes the context
in its `finally` block. -/
def cycleDepotTrace (depot : String) (account : Option String) (url : String)
    (items : List (WorkItem × List RoAction)) : List DepotEvent :=
  .ctxOpen :: (processDepotTrace depot account url items ++ [.ctxClose])

/-- The payload returned by the API collaborator: its `data` field, `none`
when the field is null/undefined. -/
structure ApiResp where
  data : Option (List Nat)
deriving DecidableEq, Repr

/-- The loop guard `testDataArr && testDataArr.data` of `fetchDataWithRetry`
(src/src/main.js 302): a non-null payload with a non-null data field. -/
def respOk : Option ApiResp → Bool
  | some r => r.data.isSome
  | none => false

/-- The attempt loop of `fetchDataWithRetry` (src/src/main.js 299-309),
with the remaining iteration count made explicit. Besides the JS return
value it counts the collaborator calls and the inter-attempt delays
(`setTimeout` at src/src/main.js 307); the delay runs only while
`attempt < maxRetries`. -/
def fetchGo (stub : Nat → Option ApiResp) (maxRetries : Nat) :
    Nat → Nat → Nat → Nat → Option ApiResp → Option ApiResp × Nat × Nat
  | 0, _, calls, delays, last => (last, calls, delays)
  | rem + 1, attempt, calls, delays, _ =>
    let r := stub attempt
    if respOk r then (r, calls + 1, delays)
    else if attempt < maxRetries then
      fetchGo stub maxRetries rem (attempt + 1) (calls + 1) (delays + 1) r
    else (r, calls + 1, delays)

/-- Embedding of `fetchDataWithRetry` (src/src/main.js 297-311): start at
attempt 1 with `testDataArr = null`; returns the JS result plus the number
of collaborator calls and of inter-attempt delays. -/
def fetchDataWithRetry (stub : Nat → Option ApiResp) (maxRetries : Nat) :
    Option ApiResp × Nat × Nat :=
  fetchGo stub maxRetries maxRetries 1 0 0 none

/-- Scheduler state: the number of in-flight `processAutomation` cycles, the
`isRunning` flag of `WebAutomationSystem`, and the number of in-flight
`processRealtimeData` runs. -/
structure SchedState where
  cycles : Nat
  isRunning : Bool
  rtActive : Nat
deriving DecidableEq, Repr

/-- Scheduler events: the auto-run interval fires, an automation cycle
returns, a realtime data change arrives, a realtime run reaches its
`finally`. -/
inductive SchedEvent where
  | tick
  | cycleDone
  | rtBegin
  | rtDone
deriving DecidableEq, Repr

/-- One scheduler transition. `tick` embeds the `setInterval` callback of
`setupAutoRun` (src/src/main.js 572-581): its body awaits
`processAutomation()` unconditionally — it consults no flag — so a tick
always starts one more in-flight cycle. `rtBegin`/`rtDone` embed
`processRealtimeData` (src/src/main.js 34-49), whose body is guarded by
`if (!this.isRunning)` and clears the flag in `finally`. -/
def schedStep (s : SchedState) : SchedEvent → SchedState
  | .tick => { s with cycles := s.cycles + 1 }
  | .cycleDone => { s with cycles := s.cycles - 1 }
  | .rtBegin =>
    if s.isRunning then s
    else { s with isRunning := true, rtActive := s.rtActive + 1 }
  | .rtDone => { s with isRunning := false, rtActive := s.rtActive - 1 }

/-- Run the scheduler over an event trace. -/
def schedRun (s : SchedState) (evs : List SchedEvent) : SchedState :=
  evs.foldl schedStep s

/-- The startup state: no cycle running, flag clear. -/
def initSched : SchedState :=
  { cycles := 0, isRunning := false, rtActive := 0 }

/-- One element matched by the click selector, as the `firstOnly` branch of
`executeAction` sees it: an identity tag and the text content of its
`matchField.selector` sub-element (`none` when the sub-element is absent or
its text is null). -/
structure PageElement where
  tag : Nat
  fieldText : Option String
deriving DecidableEq, Repr

/-- The `matchField` object of a click action: the sub-element selector and
the data key to match (src/unnamed/part_002 148-150). -/
structure MatchFieldSpec where
  selector : String
  value : String
deriving DecidableEq, Repr

/-- Whether the first character list is a prefix of the second. -/
def charsPrefix : List Char → List Char → Bool
  | [], _ => true
  | _ :: _, [] => false
  | a :: as, b :: bs => a == b && charsPrefix as bs

/-- Whether the needle occurs contiguously in the hay. -/
def charsIncl (needle : List Char) : List Char → Bool
  | [] => needle.isEmpty
  | b :: bs => charsPrefix needle (b :: bs) || charsIncl needle bs

/-- JS `hay.includes(needle)` on strings. -/
def strIncludes (hay needle : String) : Bool :=
  charsIncl needle.data hay.data

/-- ASCII whitespace, the characters JS `trim` strips in the texts at hand. -/
def isWsChar (c : Char) : Bool :=
  c == ' ' || c == '\t' || c == '\n' || c == '\r'

/-- Strip leading and trailing whitespace from a character list. -/
def trimChars (l : List Char) : List Char :=
  ((l.dropWhile isWsChar).reverse.dropWhile isWsChar).reverse

/-- JS `s.trim()`. -/
def strTrim (s : String) : String :=
  String.mk (trimChars s.data)

/-- The per-element test of the `matchField` scan (src/unnamed/part_002
152-167): the sub-element exists, its text is truthy, and the trimmed text
contains the match value. -/
def elQualifies (mv : String) (el : PageElement) : Bool :=
  match el.fieldText with
  | some s => (s != "") && strIncludes (strTrim s) mv
  | none => false

/-- The scan over the matched elements (src/unnamed/part_002 152-167):
return the first qualifying element, `none` when none qualifies. -/
def scanForMatch (mv : String) : List PageElement → Option PageElement
  | [] => none
  | el :: rest => if elQualifies mv el then some el else scanForMatch mv rest

deriving instance DecidableEq for Except

/-- JS `x.toString()` on a field value: throws a `TypeError` on `undefined`
and `null`, and stringifies every other value. -/
def jsToStringCall : JsVal → Except JsErr String
  | .undefined => .error (.typeErr "Cannot read properties of undefined")
  | .null => .error (.typeErr "Cannot read properties of null")
  | .bool b => .ok (if b then "true" else "false")
  | .num n => .ok (toString n)
  | .str s => .ok s
  | .obj _ => .ok "[object Object]"

/-- Embedding of the `click` + `firstOnly` branch of `executeAction`
(src/unnamed/part_002 133-185): with no element the branch throws; with a
`matchField` it first evaluates `data[matchField.value].toString()` and then
targets the first qualifying element, falling back to the first matched
element; without a `matchField` it targets the first element. The `data`
argument models property access on the data context, a missing key reading
as `undefined`. -/
def clickFirstOnly (elements : List PageElement) (mf : Option MatchFieldSpec)
    (data : String → JsVal) : Except JsErr PageElement :=
  match elements with
  | [] => .error (.err "No elements found for selector")
  | e0 :: _ =>
    match mf with
    | none => .ok e0
    | some m =>
      match jsToStringCall (data m.value) with
      | .error e => .error e
      | .ok mv => .ok ((scanForMatch mv elements).getD e0)

lemma append_singleton_ne {α : Type} (l : List α) (x : α) : l ++ [x] ≠ l := by
  intro h
  have hlen := congrArg List.length h
  simp at hlen

/-- The failure reason produced by a failing step (matching the strings built
at src/src/main.js 342 and 349). -/
def stepReason (a : RoAction) : String :=
  match a.behavior with
  | .throws msg => orDefaultStr msg "Action execution failed"
  | .completes pg =>
    match checkAndHandlePopup pg with
    | some .error => "Popup error detected"
    | some .warning => "Popup warning detected"
    | _ => ""

lemma runRoActions_cons (a : RoAction) (rest : List RoAction) :
    runRoActions (a :: rest) =
      if a.typeAction = "roData" then
        (if roStepFails a then some (stepReason a) else runRoActions rest)
      else runRoActions rest := by
  rcases a with ⟨t, b⟩
  by_cases ht : t = "roData"
  · cases b with
    | throws msg => simp [runRoActions, roStepFails, stepReason, ht]
    | completes pg =>
      rcases hcp : checkAndHandlePopup pg with _ | v
      · simp [runRoActions, roStepFails, stepReason, ht, hcp]
      · cases v <;> simp [runRoActions, roStepFails, stepReason, ht, hcp]
  · simp [runRoActions, ht]

lemma runRoActions_isSome_iff (acts : List RoAction) :
    (runRoActions acts).isSome = true ↔
      ∃ a ∈ acts, a.typeAction = "roData" ∧ roStepFails a = true := by
  induction acts with
  | nil => simp [runRoActions]
  | cons a rest ih =>
    rw [runRoActions_cons]
    by_cases ht : a.typeAction = "roData"
    · by_cases hf : roStepFails a = true
      · rw [if_pos ht, if_pos hf]
        constructor
        · intro _
          exact ⟨a, List.mem_cons_self a rest, ht, hf⟩
        · intro _
          rfl
      · rw [if_pos ht, if_neg hf, ih]
        constructor
        · rintro ⟨x, hx, hxt, hxf⟩
          refine ⟨x, List.mem_cons_of_mem a hx, hxt, hxf⟩
        · rintro ⟨x, hx, hxt, hxf⟩
          rcases List.mem_cons.mp hx with hxa | hxr
          · exact absurd (hxa ▸ hxf) hf
          · exact ⟨x, hxr, hxt, hxf⟩
    · rw [if_neg ht, ih]
      constructor
      · rintro ⟨x, hx, hxt, hxf⟩
        exact ⟨x, List.mem_cons_of_mem a hx, hxt, hxf⟩
      · rintro ⟨x, hx, hxt, hxf⟩
        rcases List.mem_cons.mp hx with hxa | hxr
        · exact absurd (hxa ▸ hxt) ht
        · exact ⟨x, hxr, hxt, hxf⟩

/-- C1: every work item a completed `processReleaseOrder` call handles is
recorded in exactly one of the success list and the failed file: when some
`roData` action throws or yields an error/warning popup verdict, a failed
record is appended and the success list is untouched, otherwise a success
record is pushed and the failed file is untouched — never both, never
neither. -/
theorem spec_C1 (acts : List RoAction) (item : WorkItem) (depot : String)
    (f : FailedFile) (s : List ResultRecord) :
    (((processReleaseOrder acts item depot f s).1 = f ∧
      (processReleaseOrder acts item depot f s).2 = s ++ [mkResultRecord depot item]) ∨
     (∃ r, (processReleaseOrder acts item depot f s).1 =
         appendFailedToFile f (mkFailedRecord depot item r) ∧
       (processReleaseOrder acts item depot f s).2 = s)) ∧
    ¬((processReleaseOrder acts item depot f s).1.data ≠ f.data ∧
      (processReleaseOrder acts item depot f s).2 ≠ s) ∧
    ((processReleaseOrder acts item depot f s).1.data ≠ f.data ∨
      (processReleaseOrder acts item depot f s).2 ≠ s) ∧
    ((runRoActions acts).isSome = true ↔
      ∃ a ∈ acts, a.typeAction = "roData" ∧ roStepFails a = true) := by
  refine ⟨?_, ?_, ?_, runRoActions_isSome_iff acts⟩
  · cases h : runRoActions acts with
    | none => exact Or.inl ⟨by simp [processReleaseOrder, h], by simp [processReleaseOrder, h]⟩
    | some r => exact Or.inr ⟨r, by simp [processReleaseOrder, h], by simp [processReleaseOrder, h]⟩
  · cases h : runRoActions acts with
    | none =>
      rintro ⟨h1, _⟩
      exact h1 (by simp [processReleaseOrder, h])
    | some r =>
      rintro ⟨_, h2⟩
      exact h2 (by simp [processReleaseOrder, h])
  · cases h : runRoActions acts with
    | none =>
      refine Or.inr ?_
      simp only [processReleaseOrder, h]
      exact append_singleton_ne s (mkResultRecord depot item)
    | some r =>
      refine Or.inl ?_
      simp only [processReleaseOrder, h, appendFailedToFile]
      exact append_singleton_ne f.data (mkFailedRecord depot item r)

/-- Witness for C1 at a concrete throwing action. -/
theorem spec_C1_witness :
    (runRoActions [{ typeAction := "roData", behavior := StepBehavior.throws none }]).isSome
      = true :=
  (spec_C1 [{ typeAction := "roData", behavior := StepBehavior.throws none }]
      { ID := some "5", releaseOrderNumber := some "RO5" } "D1"
      { total := 0, data := [] } []).2.2.2.mpr
    ⟨{ typeAction := "roData", behavior := StepBehavior.throws none }, by decide, rfl, rfl⟩

lemma sched_rt_inv (evs : List SchedEvent) (s : SchedState)
    (h : s.rtActive = (if s.isRunning then 1 else 0)) :
    (schedRun s evs).rtActive = (if (schedRun s evs).isRunning then 1 else 0) := by
  induction evs generalizing s with
  | nil => exact h
  | cons e rest ih =>
    have hstep : (schedStep s e).rtActive = (if (schedStep s e).isRunning then 1 else 0) := by
      cases e with
      | tick => simpa [schedStep] using h
      | cycleDone => simpa [schedStep] using h
      | rtBegin =>
        by_cases hr : s.isRunning
        · simpa [schedStep, hr] using h
        · simp [schedStep, hr] at h ⊢
          omega
      | rtDone =>
        by_cases hr : s.isRunning <;> simp [schedStep, hr] at h ⊢ <;> omega
    have hrun : schedRun s (e :: rest) = schedRun (schedStep s e) rest := rfl
    rw [hrun]
    exact ih (schedStep s e) hstep

/-- C2: the interval callback of `setupAutoRun` starts `processAutomation`
unconditionally, so two timer ticks with no intervening cycle completion
leave two automation cycles in flight — the claimed mutual exclusion of
cycles does not hold. The `isRunning` flag guards only the
`processRealtimeData` path, whose in-flight count never exceeds one. -/
theorem spec_C2 :
    (schedRun initSched [SchedEvent.tick, SchedEvent.tick]).cycles = 2 ∧
    1 < (schedRun initSched [SchedEvent.tick, SchedEvent.tick]).cycles ∧
    ∀ evs : List SchedEvent, (schedRun initSched evs).rtActive ≤ 1 := by
  refine ⟨rfl, by decide, ?_⟩
  intro evs
  have h := sched_rt_inv evs initSched (by simp [initSched])
  rw [h]
  by_cases hb : (schedRun initSched evs).isRunning <;> simp [hb]

lemma markRemainingGo_data (depot : String) (processed : List String)
    (items : List WorkItem) (f : FailedFile) :
    (markRemainingGo depot processed items f).data =
      f.data ++ (items.filter
        (fun it => !(processed.contains (roNumberOf it)))).map (closedRecord depot) := by
  induction items generalizing f with
  | nil => simp [markRemainingGo]
  | cons it rest ih =>
    by_cases hc : roNumberOf it ∈ processed
    · simp [markRemainingGo, hc, ih]
    · simp [markRemainingGo, hc, ih, appendFailedToFile]

/-- C3: after a depot-fatal failure, reconciliation appends a failed record
for exactly those work items of the depot whose release-order number is in
neither the success list nor the failed file, each with the browser-closed
reason; every new record carries that reason, and an item already recorded
gains no further entry keyed by its number. -/
theorem spec_C3 (items : List WorkItem) (depot : String) (f : FailedFile)
    (s : List ResultRecord) :
    (markRemainingAsFailed items depot f s).data =
      f.data ++ (items.filter (fun it =>
        !((s.map (fun r => r.releaseOrderNumber) ++ getFailedROs f).contains
          (roNumberOf it)))).map (closedRecord depot) ∧
    (∀ r ∈ (markRemainingAsFailed items depot f s).data,
      r ∈ f.data ∨ r.reason = "Browser/Page closed unexpectedly") ∧
    (∀ it ∈ items,
      (s.map (fun r => r.releaseOrderNumber) ++ getFailedROs f).contains (roNumberOf it)
          = true →
      (markRemainingAsFailed items depot f s).data.filter
          (fun r => r.releaseOrderNumber == roNumberOf it) =
        f.data.filter (fun r => r.releaseOrderNumber == roNumberOf it)) := by
  have h1 := markRemainingGo_data depot
    (s.map (fun r => r.releaseOrderNumber) ++ getFailedROs f) items f
  refine ⟨h1, ?_, ?_⟩
  · intro r hr
    rw [markRemainingAsFailed] at hr
    rw [h1] at hr
    rcases List.mem_append.mp hr with hl | hrr
    · exact Or.inl hl
    · rcases List.mem_map.mp hrr with ⟨x, _, hx⟩
      exact Or.inr (hx ▸ rfl)
  · intro it _ hcont
    rw [markRemainingAsFailed, h1, List.filter_append]
    have hnil : ((items.filter (fun it =>
        !((s.map (fun r => r.releaseOrderNumber) ++ getFailedROs f).contains
          (roNumberOf it)))).map (closedRecord depot)).filter
        (fun r => r.releaseOrderNumber == roNumberOf it) = [] := by
      refine List.filter_eq_nil_iff.mpr ?_
      intro r hr
      rcases List.mem_map.mp hr with ⟨x, hxmem, hx⟩
      rcases List.mem_filter.mp hxmem with ⟨_, hxskip⟩
      simp only [Bool.not_eq_true', Bool.not_eq_true] at hxskip
      intro heq
      have hrn : r.releaseOrderNumber = roNumberOf x := by
        rw [← hx]; rfl
      have : roNumberOf x = roNumberOf it := by
        have := of_decide_eq_true (by simpa using heq)
        rw [← hrn]; exact (hrn ▸ this)
      rw [this] at hxskip
      rw [hxskip] at hcont
      exact Bool.false_ne_true hcont
    rw [hnil, List.append_nil]

/-- Five work items of one depot, for the reconciliation scenario. -/
def c3Items : List WorkItem :=
  [{ ID := some "1", releaseOrderNumber := some "RO1" },
   { ID := some "2", releaseOrderNumber := some "RO2" },
   { ID := some "3", releaseOrderNumber := some "RO3" },
   { ID := some "4", releaseOrderNumber := some "RO4" },
   { ID := some "5", releaseOrderNumber := some "RO5" }]

/-- Success list holding the first two of `c3Items`. -/
def c3Success : List ResultRecord :=
  [mkResultRecord "D1" { ID := some "1", releaseOrderNumber := some "RO1" },
   mkResultRecord "D1" { ID := some "2", releaseOrderNumber := some "RO2" }]

/-- Witness for C3: with 2 of 5 items already in the success list and an
empty failed file, reconciliation appends exactly the remaining 3, and the
already-successful first item gains no failed entry. -/
theorem spec_C3_witness :
    (markRemainingAsFailed c3Items "D1" { total := 0, data := [] } c3Success).data =
      [closedRecord "D1" { ID := some "3", releaseOrderNumber := some "RO3" },
       closedRecord "D1" { ID := some "4", releaseOrderNumber := some "RO4" },
       closedRecord "D1" { ID := some "5", releaseOrderNumber := some "RO5" }] ∧
    (markRemainingAsFailed c3Items "D1" { total := 0, data := [] } c3Success).data.filter
        (fun r => r.releaseOrderNumber == "RO1") = [] := by
  have h := spec_C3 c3Items "D1" { total := 0, data := [] } c3Success
  refine ⟨h.1.trans (by decide), ?_⟩
  have h2 := h.2.2 { ID := some "1", releaseOrderNumber := some "RO1" }
    (by decide) (by decide)
  have hro : roNumberOf { ID := some "1", releaseOrderNumber := some "RO1" } = "RO1" := rfl
  rw [hro] at h2
  exact h2.trans (by decide)

lemma processItemsLoop_spec (items : List (WorkItem × List RoAction)) (depot : String)
    (f : FailedFile) (s : List ResultRecord) :
    (processItemsLoop items depot f s).2 =
      s ++ (items.filter (fun p => (runRoActions p.2).isNone)).map
        (fun p => mkResultRecord depot p.1) ∧
    (processItemsLoop items depot f s).1.data =
      f.data ++ (items.filter (fun p => (runRoActions p.2).isSome)).map
        (fun p => mkFailedRecord depot p.1 ((runRoActions p.2).getD "")) := by
  induction items generalizing f s with
  | nil => simp [processItemsLoop]
  | cons p rest ih =>
    rcases p with ⟨it, acts⟩
    cases h : runRoActions acts with
    | none =>
      have hstep : processItemsLoop ((it, acts) :: rest) depot f s =
          processItemsLoop rest depot f (s ++ [mkResultRecord depot it]) := by
        simp [processItemsLoop, processReleaseOrder, h]
      have hih := ih f (s ++ [mkResultRecord depot it])
      constructor
      · rw [hstep, hih.1]
        simp [h, List.append_assoc]
      · rw [hstep, hih.2]
        simp [h]
    | some r =>
      have hstep : processItemsLoop ((it, acts) :: rest) depot f s =
          processItemsLoop rest depot
            (appendFailedToFile f (mkFailedRecord depot it r)) s := by
        simp [processItemsLoop, processReleaseOrder, h]
      have hih := ih (appendFailedToFile f (mkFailedRecord depot it r)) s
      constructor
      · rw [hstep, hih.1]
        simp [h]
      · rw [hstep, hih.2]
        simp [h, appendFailedToFile, List.append_assoc]

/-- Page state with a visible error popup carrying a message. -/
def c4Page : PageAfter :=
  { success := { present := false, display := "none", message := "" },
    error := { present := true, display := "block", message := "Insufficient funds" },
    warn := { present := false, display := "none", message := "" } }

/-- Counterexample for C4: a visible error popup with message text
`Insufficient funds` makes the item fail, but the recorded reason is the
fixed string `Popup error detected`, not the popup message. -/
theorem spec_C4_counterexample :
    ((processReleaseOrder
        [{ typeAction := "roData", behavior := StepBehavior.completes c4Page }]
        { ID := some "9", releaseOrderNumber := some "RO9" } "D1"
        { total := 0, data := [] } []).1.data.map (fun r => r.reason) =
      ["Popup error detected"]) ∧
    c4Page.error.message = "Insufficient funds" ∧
    ("Popup error detected" : String) ≠ "Insufficient funds" ∧
    (processReleaseOrder
        [{ typeAction := "roData", behavior := StepBehavior.completes c4Page }]
        { ID := some "9", releaseOrderNumber := some "RO9" } "D1"
        { total := 0, data := [] } []).2 = ([] : List ResultRecord) := by
  decide

/-- C4 as amended: failures are isolated per item — the depot loop records
every item, appending to the success list exactly the items whose actions
all pass, and to the failed file exactly the failing items in order, so no
failure blocks later items. An error or warning verdict yields the fixed
reason `Popup error detected`/`Popup warning detected` (the verdict name,
not the popup message), and a thrown interpreter error yields the error's
message, defaulting to `Action execution failed`. -/
theorem spec_C4_amended (items : List (WorkItem × List RoAction)) (depot : String)
    (f : FailedFile) (s : List ResultRecord) :
    ((processItemsLoop items depot f s).2 =
      s ++ (items.filter (fun p => (runRoActions p.2).isNone)).map
        (fun p => mkResultRecord depot p.1)) ∧
    ((processItemsLoop items depot f s).1.data =
      f.data ++ (items.filter (fun p => (runRoActions p.2).isSome)).map
        (fun p => mkFailedRecord depot p.1 ((runRoActions p.2).getD ""))) ∧
    (∀ (pg : PageAfter) (rest : List RoAction), checkAndHandlePopup pg = some .error →
      runRoActions ({ typeAction := "roData", behavior := .completes pg } :: rest) =
        some "Popup error detected") ∧
    (∀ (pg : PageAfter) (rest : List RoAction), checkAndHandlePopup pg = some .warning →
      runRoActions ({ typeAction := "roData", behavior := .completes pg } :: rest) =
        some "Popup warning detected") ∧
    (∀ (msg : Option String) (rest : List RoAction),
      runRoActions ({ typeAction := "roData", behavior := .throws msg } :: rest) =
        some (orDefaultStr msg "Action execution failed")) := by
  refine ⟨(processItemsLoop_spec items depot f s).1,
    (processItemsLoop_spec items depot f s).2, ?_, ?_, ?_⟩
  · intro pg rest h
    simp [runRoActions, h]
  · intro pg rest h
    simp [runRoActions, h]
  · intro msg rest
    simp [runRoActions]

/-- Page state with every popup hidden. -/
def c4OkPage : PageAfter :=
  { success := { present := false, display := "none", message := "" },
    error := { present := false, display := "none", message := "" },
    warn := { present := false, display := "none", message := "" } }

/-- Page state with a visible warning popup. -/
def c4WarnPage : PageAfter :=
  { success := { present := false, display := "none", message := "" },
    error := { present := false, display := "none", message := "" },
    warn := { present := true, display := "block", message := "Low stock" } }

/-- Three items of one depot: the first hits a warning popup, the second
passes, the third throws. -/
def c4Items : List (WorkItem × List RoAction) :=
  [({ ID := some "1", releaseOrderNumber := some "RO1" },
    [{ typeAction := "roData", behavior := .completes c4WarnPage }]),
   ({ ID := some "2", releaseOrderNumber := some "RO2" },
    [{ typeAction := "roData", behavior := .completes c4OkPage }]),
   ({ ID := some "3", releaseOrderNumber := some "RO3" },
    [{ typeAction := "roData", behavior := .throws (some "boom") }])]

/-- Witness for C4: on `c4Items` the middle item still succeeds although its
neighbors fail, and the failure reasons are the verdict-name string and the
thrown message. -/
theorem spec_C4_witness :
    (processItemsLoop c4Items "D1" { total := 0, data := [] } []).2 =
      [mkResultRecord "D1" { ID := some "2", releaseOrderNumber := some "RO2" }] ∧
    (processItemsLoop c4Items "D1" { total := 0, data := [] } []).1.data.map
        (fun r => r.reason) = ["Popup warning detected", "boom"] ∧
    runRoActions [{ typeAction := "roData", behavior := .completes c4WarnPage }] =
      some "Popup warning detected" := by
  have h := spec_C4_amended c4Items "D1" { total := 0, data := [] } []
  refine ⟨h.1.trans (by decide),
    (congrArg (List.map (fun r => r.reason)) h.2.1).trans (by decide),
    h.2.2.2.1 c4WarnPage [] (by decide)⟩

lemma fetchGo_succ_eq (stub : Nat → Option ApiResp) (mr rem att c d : Nat)
    (l : Option ApiResp) :
    fetchGo stub mr (rem + 1) att c d l =
      if respOk (stub att) then ((stub att), c + 1, d)
      else if att < mr then fetchGo stub mr rem (att + 1) (c + 1) (d + 1) (stub att)
      else ((stub att), c + 1, d) := rfl

lemma fetchGo_step_fail (stub : Nat → Option ApiResp) (mr rem att c d : Nat)
    (l : Option ApiResp) (hfail : respOk (stub att) = false) (hlt : att < mr) :
    fetchGo stub mr (rem + 1) att c d l =
      fetchGo stub mr rem (att + 1) (c + 1) (d + 1) (stub att) := by
  rw [fetchGo_succ_eq, hfail]
  simp [hlt]

lemma fetchGo_step_fail_last (stub : Nat → Option ApiResp) (mr rem att c d : Nat)
    (l : Option ApiResp) (hfail : respOk (stub att) = false) (hnlt : ¬ att < mr) :
    fetchGo stub mr (rem + 1) att c d l = ((stub att), c + 1, d) := by
  rw [fetchGo_succ_eq, hfail]
  simp [hnlt]

lemma fetchGo_step_ok (stub : Nat → Option ApiResp) (mr rem att c d : Nat)
    (l : Option ApiResp) (hok : respOk (stub att) = true) :
    fetchGo stub mr (rem + 1) att c d l = ((stub att), c + 1, d) := by
  rw [fetchGo_succ_eq, hok]
  simp

/-- Counterexample for C5: a collaborator that always returns a payload whose
`data` field is null never yields a payload with non-null data, yet
`fetchDataWithRetry` returns that payload — not `null` — after its 3 calls. -/
theorem spec_C5_counterexample :
    (fetchDataWithRetry (fun _ => some { data := none }) 3).1 ≠ none ∧
    (fetchDataWithRetry (fun _ => some { data := none }) 3).1 = some { data := none } ∧
    (fetchDataWithRetry (fun _ => some { data := none }) 3).2.1 = 3 := by
  decide

/-- C5 as amended: with maxAttempts = 3, a collaborator failing on the first
two attempts and succeeding on the third yields the third payload after
exactly 3 calls and 2 inter-attempt delays; a collaborator that never yields
a payload with non-null data makes the function return the final attempt's
result unchanged (null exactly when that call returned null) after exactly 3
calls and 2 delays. -/
theorem spec_C5_amended (stub : Nat → Option ApiResp) :
    (respOk (stub 1) = false → respOk (stub 2) = false → respOk (stub 3) = true →
      fetchDataWithRetry stub 3 = ((stub 3), 3, 2)) ∧
    ((∀ i, 1 ≤ i → i ≤ 3 → respOk (stub i) = false) →
      fetchDataWithRetry stub 3 = ((stub 3), 3, 2)) := by
  constructor
  · intro h1 h2 h3
    show fetchGo stub 3 (2 + 1) 1 0 0 none = ((stub 3), 3, 2)
    rw [fetchGo_step_fail stub 3 2 1 0 0 none h1 (by norm_num)]
    show fetchGo stub 3 (1 + 1) 2 1 1 (stub 1) = ((stub 3), 3, 2)
    rw [fetchGo_step_fail stub 3 1 2 1 1 (stub 1) h2 (by norm_num)]
    show fetchGo stub 3 (0 + 1) 3 2 2 (stub 2) = ((stub 3), 3, 2)
    rw [fetchGo_step_ok stub 3 0 3 2 2 (stub 2) h3]
  · intro hall
    show fetchGo stub 3 (2 + 1) 1 0 0 none = ((stub 3), 3, 2)
    rw [fetchGo_step_fail stub 3 2 1 0 0 none (hall 1 (by norm_num) (by norm_num))
      (by norm_num)]
    show fetchGo stub 3 (1 + 1) 2 1 1 (stub 1) = ((stub 3), 3, 2)
    rw [fetchGo_step_fail stub 3 1 2 1 1 (stub 1) (hall 2 (by norm_num) (by norm_num))
      (by norm_num)]
    show fetchGo stub 3 (0 + 1) 3 2 2 (stub 2) = ((stub 3), 3, 2)
    rw [fetchGo_step_fail_last stub 3 0 3 2 2 (stub 2) (hall 3 (by norm_num) (by norm_num))
      (by norm_num)]

/-- A collaborator failing twice then succeeding on attempt 3. -/
def c5StubLate (i : Nat) : Option ApiResp :=
  if 3 ≤ i then some { data := some [7] } else none

/-- Witness for C5: the fail-fail-succeed stub yields the third payload with
3 calls and 2 delays, and the always-null stub yields null with 3 calls. -/
theorem spec_C5_witness :
    fetchDataWithRetry c5StubLate 3 = (some { data := some [7] }, 3, 2) ∧
    fetchDataWithRetry (fun _ => none) 3 = (none, 3, 2) := by
  constructor
  · exact ((spec_C5_amended c5StubLate).1 rfl rfl rfl).trans (by decide)
  · exact ((spec_C5_amended (fun _ => none)).2 (fun i _ _ => rfl)).trans (by decide)

/-- One-item depot work list for the missing-account scenario. -/
def c6Items : List (WorkItem × List RoAction) :=
  [({ ID := some "1", releaseOrderNumber := some "RO1" }, ([] : List RoAction))]

/-- Counterexample for C6: with no account for the depot, the cycle still
opens a browsing context — `ctxOpen` is the first event of the depot's
trace — refuting the claim that no browsing context is allocated. -/
theorem spec_C6_counterexample :
    DepotEvent.ctxOpen ∈ cycleDepotTrace "D1" none "https://site" c6Items ∧
    (cycleDepotTrace "D1" none "https://site" c6Items).head? =
      some DepotEvent.ctxOpen := by
  decide

/-- C6 as amended: for a depot with no account, the trace consists solely of
the context-open event, one no-account failed append per work item (reason
`No account configured for depot`), and the context-close event; no
navigation and no login phase ever happen for that depot, but the cycle
runner does allocate (and close) a browsing context before the account
check. -/
theorem spec_C6_amended (depot url : String) (items : List (WorkItem × List RoAction)) :
    cycleDepotTrace depot none url items =
      DepotEvent.ctxOpen ::
        (items.map (fun p => DepotEvent.appendFailed (noAccountRecord depot p.1)) ++
          [DepotEvent.ctxClose]) ∧
    (∀ u, DepotEvent.navigate u ∉ cycleDepotTrace depot none url items) ∧
    DepotEvent.loginPhase ∉ cycleDepotTrace depot none url items ∧
    (∀ p ∈ items, (noAccountRecord depot p.1).reason = "No account configured for depot") := by
  refine ⟨rfl, ?_, ?_, ?_⟩
  · intro u
    simp [cycleDepotTrace, processDepotTrace]
  · simp [cycleDepotTrace, processDepotTrace]
  · intro p _
    rfl

/-- Witness for C6 on the one-item depot. -/
theorem spec_C6_witness :
    DepotEvent.navigate "https://site" ∉ cycleDepotTrace "D1" none "https://site" c6Items ∧
    cycleDepotTrace "D1" none "https://site" c6Items =
      [DepotEvent.ctxOpen,
       DepotEvent.appendFailed (noAccountRecord "D1"
         { ID := some "1", releaseOrderNumber := some "RO1" }),
       DepotEvent.ctxClose] ∧
    (noAccountRecord "D1" { ID := some "1", releaseOrderNumber := some "RO1" }).reason =
      "No account configured for depot" := by
  have h := spec_C6_amended "D1" "https://site" c6Items
  exact ⟨h.2.1 "https://site", h.1.trans (by decide),
    h.2.2.2 ({ ID := some "1", releaseOrderNumber := some "RO1" }, ([] : List RoAction))
      (by decide)⟩

lemma scanForMatch_eq_find (mv : String) (l : List PageElement) :
    scanForMatch mv l = l.find? (elQualifies mv) := by
  induction l with
  | nil => rfl
  | cons e rest ih =>
    by_cases h : elQualifies mv e = true
    · simp [scanForMatch, h, List.find?_cons_of_pos]
    · simp only [Bool.not_eq_true] at h
      simp [scanForMatch, h, List.find?_cons_of_neg, ih]

/-- C7: for a click with `firstOnly` and `matchField`, once the match value
stringifies, the targeted element is the first one whose field text
qualifies (trimmed text containing the match value), and the first matched
element when none qualifies — the first-match fallback of the source. -/
theorem spec_C7 (e0 : PageElement) (rest : List PageElement) (m : MatchFieldSpec)
    (data : String → JsVal) (mv : String)
    (h : jsToStringCall (data m.value) = .ok mv) :
    clickFirstOnly (e0 :: rest) (some m) data =
      .ok (((e0 :: rest).find? (elQualifies mv)).getD e0) := by
  simp only [clickFirstOnly, h, scanForMatch_eq_find]

/-- Three elements whose field texts are RO-111, RO-777, RO-888. -/
def c7Elems : List PageElement :=
  [{ tag := 0, fieldText := some "RO-111" },
   { tag := 1, fieldText := some "RO-777" },
   { tag := 2, fieldText := some "RO-888" }]

/-- Data context holding release-order number 777. -/
def c7Data (k : String) : JsVal :=
  if k = "releaseOrderNumber" then .str "777" else .undefined

/-- Witness for C7: among the three elements only the second one's field
text contains 777, so the second is targeted; with a value matching no
element, the first element is targeted. -/
theorem spec_C7_witness :
    clickFirstOnly c7Elems
        (some { selector := ".ro-num", value := "releaseOrderNumber" }) c7Data =
      .ok { tag := 1, fieldText := some "RO-777" } ∧
    clickFirstOnly c7Elems
        (some { selector := ".ro-num", value := "releaseOrderNumber" })
        (fun _ => JsVal.str "999") =
      .ok { tag := 0, fieldText := some "RO-111" } := by
  constructor
  · exact (spec_C7 { tag := 0, fieldText := some "RO-111" }
      [{ tag := 1, fieldText := some "RO-777" }, { tag := 2, fieldText := some "RO-888" }]
      { selector := ".ro-num", value := "releaseOrderNumber" } c7Data "777" rfl).trans
      (by decide)
  · exact (spec_C7 { tag := 0, fieldText := some "RO-111" }
      [{ tag := 1, fieldText := some "RO-777" }, { tag := 2, fieldText := some "RO-888" }]
      { selector := ".ro-num", value := "releaseOrderNumber" }
      (fun _ => JsVal.str "999") "999" rfl).trans
      (by decide)

/-- C10: when the data context has no value (undefined or null) under the
`matchField` key, the click branch throws a `TypeError` from the
`.toString()` call — uniformly in the matched elements, so no fallback to
the first match happens. -/
theorem spec_C10 (m : MatchFieldSpec) (data : String → JsVal)
    (h : data m.value = .undefined ∨ data m.value = .null) :
    ∃ msg, ∀ (e0 : PageElement) (rest : List PageElement),
      clickFirstOnly (e0 :: rest) (some m) data = .error (.typeErr msg) ∧
      ∀ el, clickFirstOnly (e0 :: rest) (some m) data ≠ .ok el := by
  rcases h with h | h
  · refine ⟨"Cannot read properties of undefined", fun e0 rest => ?_⟩
    have hc : clickFirstOnly (e0 :: rest) (some m) data =
        .error (.typeErr "Cannot read properties of undefined") := by
      simp only [clickFirstOnly, h, jsToStringCall]
    refine ⟨hc, fun el heq => ?_⟩
    rw [hc] at heq
    exact Except.noConfusion heq
  · refine ⟨"Cannot read properties of null", fun e0 rest => ?_⟩
    have hc : clickFirstOnly (e0 :: rest) (some m) data =
        .error (.typeErr "Cannot read properties of null") := by
      simp only [clickFirstOnly, h, jsToStringCall]
    refine ⟨hc, fun el heq => ?_⟩
    rw [hc] at heq
    exact Except.noConfusion heq

/-- Witness for C10: with a data context where the key is undefined, the
click on a nonempty element list yields a type error. -/
theorem spec_C10_witness :
    ∃ msg, clickFirstOnly [{ tag := 0, fieldText := some "RO-777" }]
        (some { selector := ".ro-num", value := "releaseOrderNumber" })
        (fun _ => JsVal.undefined) = .error (.typeErr msg) := by
  obtain ⟨msg, h⟩ := spec_C10 { selector := ".ro-num", value := "releaseOrderNumber" }
    (fun _ => JsVal.undefined) (Or.inl rfl)
  exact ⟨msg, (h { tag := 0, fieldText := some "RO-777" } []).1⟩

lemma normalizeField_eq (v : JsVal) :
    normalizeField v = if isWrapped v then unwrapV v else v := by
  cases v with
  | obj fs =>
    cases hv : objGet fs "v" with
    | some x => simp [normalizeField, isWrapped, unwrapV, hv]
    | none => simp [normalizeField, isWrapped, unwrapV, hv]
  | undefined => rfl
  | null => rfl
  | bool b => rfl
  | num n => rfl
  | str s => rfl

/-- A raw item whose field is doubly wrapped. -/
def c9Raw : RawItem :=
  [("FIELD", JsVal.obj [("v", JsVal.obj [("v", JsVal.num 5)])])]

/-- Counterexample for C9: `normalizeDataItem` removes one wrapper per
application, so on a doubly wrapped field its result is still wrapped and a
second application changes it — the unwrap is not idempotent. -/
theorem spec_C9_counterexample :
    normalizeDataItem c9Raw = [("FIELD", JsVal.obj [("v", JsVal.num 5)])] ∧
    normalizeDataItem (normalizeDataItem c9Raw) ≠ normalizeDataItem c9Raw := by
  refine ⟨rfl, ?_⟩
  intro h
  have h1 : normalizeDataItem c9Raw = [("FIELD", JsVal.obj [("v", JsVal.num 5)])] := rfl
  have h2 : normalizeDataItem (normalizeDataItem c9Raw) = [("FIELD", JsVal.num 5)] := rfl
  have hcontra : ([("FIELD", JsVal.num 5)] : RawItem) =
      [("FIELD", JsVal.obj [("v", JsVal.num 5)])] := by
    rw [← h2, h, h1]
  injection hcontra with hhead _
  injection hhead with _ hval
  exact JsVal.noConfusion hval

/-- C9 as amended: `normalizeDataItem` maps every field whose value is an
object containing key `v` to that binding (one wrapper layer) and leaves
every other field unchanged; it is the identity on items with no wrapped
field — which yields the two concrete spec examples — but it is not
idempotent on doubly wrapped fields. -/
theorem spec_C9_amended :
    (∀ item : RawItem, (∀ p ∈ item, isWrapped p.2 = false) →
      normalizeDataItem item = item) ∧
    (∀ item : RawItem, normalizeDataItem item =
      item.map (fun p => (p.1, if isWrapped p.2 then unwrapV p.2 else p.2))) ∧
    normalizeDataItem [("FIELD", JsVal.obj [("v", JsVal.num 5)])] =
      [("FIELD", JsVal.num 5)] ∧
    normalizeDataItem [("FIELD", JsVal.num 5)] = [("FIELD", JsVal.num 5)] := by
  refine ⟨?_, ?_, rfl, rfl⟩
  · intro item h
    induction item with
    | nil => rfl
    | cons p rest ih =>
      have hp := h p (List.mem_cons_self p rest)
      have hrest := ih (fun q hq => h q (List.mem_cons_of_mem p hq))
      show (p.1, normalizeField p.2) :: normalizeDataItem rest = p :: rest
      rw [hrest, normalizeField_eq, hp]
      simp
  · intro item
    simp only [normalizeDataItem, normalizeField_eq]

/-- Witness for C9: an item with no wrapped field is returned unchanged. -/
theorem spec_C9_witness :
    normalizeDataItem [("A", JsVal.str "x"), ("B", JsVal.num 2)] =
      [("A", JsVal.str "x"), ("B", JsVal.num 2)] :=
  spec_C9_amended.1 [("A", JsVal.str "x"), ("B", JsVal.num 2)] (by decide)

lemma groupLookup_nil (k : String) : groupLookup [] k = none := rfl

lemma groupLookup_cons (k2 : String) (l : List RawItem)
    (rest : List (String × List RawItem)) (k : String) :
    groupLookup ((k2, l) :: rest) k = if k2 = k then some l else groupLookup rest k := by
  by_cases h : k2 = k
  · subst h
    simp [groupLookup, List.find?]
  · have hb : (k2 == k) = false := by simp [h]
    simp [groupLookup, List.find?, hb, h]

lemma groupLookup_insert_self (g : List (String × List RawItem)) (k : String)
    (it : RawItem) :
    groupLookup (groupInsert g k it) k = some (((groupLookup g k).getD []) ++ [it]) := by
  induction g with
  | nil => simp [groupInsert, groupLookup_cons, groupLookup_nil]
  | cons p rest ih =>
    rcases p with ⟨k2, l⟩
    by_cases h : k2 = k
    · subst h
      simp [groupInsert, groupLookup_cons]
    · simp [groupInsert, h, groupLookup_cons, ih]

lemma groupLookup_insert_other (g : List (String × List RawItem)) (k k2 : String)
    (it : RawItem) (hne : k2 ≠ k) :
    groupLookup (groupInsert g k it) k2 = groupLookup g k2 := by
  induction g with
  | nil => simp [groupInsert, groupLookup_cons, groupLookup_nil, Ne.symm hne]
  | cons p rest ih =>
    rcases p with ⟨k3, l⟩
    by_cases h : k3 = k
    · subst h
      simp [groupInsert, groupLookup_cons, Ne.symm hne]
    · simp [groupInsert, h, groupLookup_cons, ih]

lemma keptFrom_nil (k : String) : keptFrom k [] = [] := rfl

lemma keptFrom_cons_keep (k : String) (item : RawItem) (rest : List RawItem)
    (h : (truthy (depotOfN (normalizeDataItem item)) &&
      (jsKeyString (depotOfN (normalizeDataItem item)) == k)) = true) :
    keptFrom k (item :: rest) = normalizeDataItem item :: keptFrom k rest := by
  simp [keptFrom, List.filter_cons, h]

lemma keptFrom_cons_skip (k : String) (item : RawItem) (rest : List RawItem)
    (h : (truthy (depotOfN (normalizeDataItem item)) &&
      (jsKeyString (depotOfN (normalizeDataItem item)) == k)) = false) :
    keptFrom k (item :: rest) = keptFrom k rest := by
  simp [keptFrom, List.filter_cons, h]

lemma groupFold_lookup (k : String) (arr : List RawItem) :
    ∀ (g : List (String × List RawItem)) (sk : List RawItem),
      groupLookup (groupFold arr g sk).1 k =
        (match groupLookup g k with
         | some l => some (l ++ keptFrom k arr)
         | none => if (keptFrom k arr).isEmpty then none else some (keptFrom k arr)) := by
  induction arr with
  | nil =>
    intro g sk
    cases hg : groupLookup g k with
    | none => simp [groupFold, keptFrom, hg]
    | some l => simp [groupFold, keptFrom, hg]
  | cons item rest ih =>
    intro g sk
    by_cases ht : truthy (depotOfN (normalizeDataItem item)) = true
    · have hstep : groupFold (item :: rest) g sk =
          groupFold rest
            (groupInsert g (jsKeyString (depotOfN (normalizeDataItem item)))
              (normalizeDataItem item)) sk := by
        simp [groupFold, ht]
      by_cases hkey : jsKeyString (depotOfN (normalizeDataItem item)) = k
      · rw [hstep, ih, hkey, groupLookup_insert_self,
          keptFrom_cons_keep k item rest (by simp [ht, hkey])]
        cases hg : groupLookup g k with
        | none => simp [hg]
        | some l => simp [hg, List.append_assoc]
      · have hb : (jsKeyString (depotOfN (normalizeDataItem item)) == k) = false := by
          simp [hkey]
        rw [hstep, ih,
          groupLookup_insert_other g (jsKeyString (depotOfN (normalizeDataItem item))) k
            (normalizeDataItem item) (fun hh => hkey hh.symm),
          keptFrom_cons_skip k item rest (by simp [hb])]
    · have ht2 : truthy (depotOfN (normalizeDataItem item)) = false := by
        simpa using ht
      have hstep : groupFold (item :: rest) g sk = groupFold rest g (sk ++ [item]) := by
        simp [groupFold, ht2]
      rw [hstep, ih, keptFrom_cons_skip k item rest (by simp [ht2])]

lemma groupFold_skipped (arr : List RawItem) :
    ∀ (g : List (String × List RawItem)) (sk : List RawItem),
      (groupFold arr g sk).2 =
        sk ++ arr.filter (fun item => !(truthy (depotOfN (normalizeDataItem item)))) := by
  induction arr with
  | nil => intro g sk; simp [groupFold]
  | cons item rest ih =>
    intro g sk
    by_cases ht : truthy (depotOfN (normalizeDataItem item)) = true
    · simp [groupFold, ht, ih, List.filter_cons]
    · simp [groupFold, ht, ih, List.filter_cons]

/-- Every bucket holds only normalized items with a truthy depot whose
stringified key is the bucket's key. -/
def bucketWF (g : List (String × List RawItem)) : Prop :=
  ∀ p ∈ g, ∀ n ∈ p.2, truthy (depotOfN n) = true ∧ jsKeyString (depotOfN n) = p.1

lemma groupInsert_WF (g : List (String × List RawItem)) (k : String) (it : RawItem)
    (hg : bucketWF g) (h1 : truthy (depotOfN it) = true)
    (h2 : jsKeyString (depotOfN it) = k) :
    bucketWF (groupInsert g k it) := by
  induction g with
  | nil =>
    intro p hp n hn
    simp [groupInsert] at hp
    subst hp
    simp at hn
    subst hn
    exact ⟨h1, h2⟩
  | cons q rest ih =>
    rcases q with ⟨k2, l⟩
    by_cases hk : k2 = k
    · subst hk
      intro p hp n hn
      simp only [groupInsert, if_pos rfl] at hp
      rcases List.mem_cons.mp hp with hp | hp
      · subst hp
        rcases List.mem_append.mp hn with h | h
        · exact hg (k2, l) (List.mem_cons_self _ _) n h
        · simp at h
          subst h
          exact ⟨h1, h2⟩
      · exact hg p (List.mem_cons_of_mem _ hp) n hn
    · intro p hp n hn
      simp only [groupInsert, if_neg hk] at hp
      rcases List.mem_cons.mp hp with hp | hp
      · subst hp
        exact hg (k2, l) (List.mem_cons_self _ _) n hn
      · have hrest : bucketWF rest := fun q hq => hg q (List.mem_cons_of_mem _ hq)
        exact ih hrest p hp n hn

lemma groupFold_WF (arr : List RawItem) :
    ∀ (g : List (String × List RawItem)) (sk : List RawItem),
      bucketWF g → bucketWF (groupFold arr g sk).1 := by
  induction arr with
  | nil =>
    intro g sk h
    simpa [groupFold] using h
  | cons item rest ih =>
    intro g sk hg
    by_cases ht : truthy (depotOfN (normalizeDataItem item)) = true
    · have hstep : groupFold (item :: rest) g sk =
          groupFold rest
            (groupInsert g (jsKeyString (depotOfN (normalizeDataItem item)))
              (normalizeDataItem item)) sk := by
        simp [groupFold, ht]
      rw [hstep]
      exact ih _ _ (groupInsert_WF g _ _ hg ht rfl)
    · have hstep : groupFold (item :: rest) g sk = groupFold rest g (sk ++ [item]) := by
        simp [groupFold, ht]
      rw [hstep]
      exact ih _ _ hg

lemma bucketAppend_of_found (g : List (String × List RawItem)) (k : String)
    (n : RawItem) (h : (groupLookup g k).isSome = true) :
    bucketAppend g k n = groupInsert g k n := by
  induction g with
  | nil =>
    rw [groupLookup_nil] at h
    simp at h
  | cons p rest ih =>
    rcases p with ⟨k2, l⟩
    by_cases hk : k2 = k
    · simp [bucketAppend, groupInsert, hk]
    · have h2 : (groupLookup rest k).isSome = true := by
        rw [groupLookup_cons, if_neg hk] at h
        exact h
      simp [bucketAppend, groupInsert, hk, ih h2]

lemma groupLookup_init_none (g : List (String × List RawItem)) (k : String)
    (h : groupLookup g k = none) :
    groupLookup (bucketInit g k) k = some [] := by
  induction g with
  | nil => simp [bucketInit, groupLookup_cons]
  | cons p rest ih =>
    rcases p with ⟨k2, l⟩
    have hk : ¬ k2 = k := by
      intro he
      rw [groupLookup_cons, if_pos he] at h
      exact Option.noConfusion h
    have h2 : groupLookup rest k = none := by
      rw [groupLookup_cons, if_neg hk] at h
      exact h
    show groupLookup ((k2, l) :: bucketInit rest k) k = some []
    rw [groupLookup_cons, if_neg hk]
    exact ih h2

lemma bucketAppend_init (g : List (String × List RawItem)) (k : String) (n : RawItem)
    (h : groupLookup g k = none) :
    bucketAppend (bucketInit g k) k n = groupInsert g k n := by
  induction g with
  | nil => simp [bucketInit, bucketAppend, groupInsert]
  | cons p rest ih =>
    rcases p with ⟨k2, l⟩
    have hk : ¬ k2 = k := by
      intro he
      rw [groupLookup_cons, if_pos he] at h
      exact Option.noConfusion h
    have h2 : groupLookup rest k = none := by
      rw [groupLookup_cons, if_neg hk] at h
      exact h
    show bucketAppend ((k2, l) :: bucketInit rest k) k n = groupInsert ((k2, l) :: rest) k n
    simp [bucketAppend, groupInsert, hk, ih h2]

lemma groupStep_ok (g : List (String × List RawItem)) (k : String) (n : RawItem)
    (hproto : objectProtoNames.contains k = false) :
    bucketPush (if groupReadTruthy g k = false then bucketInit g k else g) k n =
      Except.ok (groupInsert g k n) := by
  cases hown : groupLookup g k with
  | some l =>
    have hs : (groupLookup g k).isSome = true := by simp [hown]
    have hread : groupReadTruthy g k = true := by simp [groupReadTruthy, hs]
    simp [hread, bucketPush, hs, bucketAppend_of_found g k n hs]
  | none =>
    have hs : (groupLookup g k).isSome = false := by simp [hown]
    have hpm : k ∉ objectProtoNames := by simpa using hproto
    have hread : groupReadTruthy g k = false := by simp [groupReadTruthy, hs, hpm]
    have hinit := groupLookup_init_none g k hown
    have hsome : (groupLookup (bucketInit g k) k).isSome = true := by simp [hinit]
    simp [hread, bucketPush, hsome, bucketAppend_init g k n hown]

lemma groupStep_throws (g : List (String × List RawItem)) (k : String) (n : RawItem)
    (hproto : objectProtoNames.contains k = true) (hown : groupLookup g k = none) :
    bucketPush (if groupReadTruthy g k = false then bucketInit g k else g) k n =
      Except.error (JsErr.typeErr "grouped[depot].push is not a function") := by
  have hpm : k ∈ objectProtoNames := by simpa using hproto
  have hread : groupReadTruthy g k = true := by simp [groupReadTruthy, hpm]
  simp [hread, bucketPush, hown]

/-- No kept item's stringified depot key names an `Object.prototype`
member — the proviso under which the grouping loop cannot throw. -/
abbrev noProtoKeys (arr : List RawItem) : Prop :=
  ∀ item ∈ arr, truthy (depotOfN (normalizeDataItem item)) = true →
    objectProtoNames.contains (jsKeyString (depotOfN (normalizeDataItem item))) = false

lemma groupGo_eq_fold (arr : List RawItem) :
    ∀ (g : List (String × List RawItem)) (sk : List RawItem), noProtoKeys arr →
      groupGo arr g sk = Except.ok (groupFold arr g sk) := by
  induction arr with
  | nil => intro g sk _; rfl
  | cons item rest ih =>
    intro g sk h
    have hrest : noProtoKeys rest := fun q hq => h q (List.mem_cons_of_mem item hq)
    by_cases ht : truthy (depotOfN (normalizeDataItem item)) = true
    · have hproto := h item (List.mem_cons_self item rest) ht
      have hstep := groupStep_ok g (jsKeyString (depotOfN (normalizeDataItem item)))
        (normalizeDataItem item) hproto
      have hgo : groupGo (item :: rest) g sk =
          groupGo rest
            (groupInsert g (jsKeyString (depotOfN (normalizeDataItem item)))
              (normalizeDataItem item)) sk := by
        simp [groupGo, ht, hstep]
      have hfold : groupFold (item :: rest) g sk =
          groupFold rest
            (groupInsert g (jsKeyString (depotOfN (normalizeDataItem item)))
              (normalizeDataItem item)) sk := by
        simp [groupFold, ht]
      rw [hgo, hfold]
      exact ih _ _ hrest
    · have ht2 : truthy (depotOfN (normalizeDataItem item)) = false := by
        simpa using ht
      have hgo : groupGo (item :: rest) g sk = groupGo rest g (sk ++ [item]) := by
        simp [groupGo, ht2]
      have hfold : groupFold (item :: rest) g sk = groupFold rest g (sk ++ [item]) := by
        simp [groupFold, ht2]
      rw [hgo, hfold]
      exact ih _ _ hrest

/-- Counterexample for C8: an item whose depot is the string toString makes
`groupByDepot` throw — `!grouped[depot]` sees the truthy inherited
`Object.prototype.toString`, the bucket is never initialized, and the push
is called on a non-array — refuting the claim that the function never
throws. An ordinary depot key succeeds on the same shape of input. -/
theorem spec_C8_counterexample :
    groupByDepot [[("DEPOT", JsVal.str "toString")]] =
      Except.error (JsErr.typeErr "grouped[depot].push is not a function") ∧
    groupByDepot [[("DEPOT", JsVal.str "A")]] =
      Except.ok ([("A", [[("DEPOT", JsVal.str "A")]])], []) := by
  exact ⟨rfl, rfl⟩

/-- C8 as amended: for every input array in which no kept item's stringified
depot key names an `Object.prototype` member, `groupByDepot` completes
without throwing and returns the pure grouping: (i) reading any key of the
result yields exactly the normalized truthy-depot items with that
stringified key, in input order; (ii) the skipped-and-logged items are
exactly those whose normalized depot is falsy or missing; (iii) no bucket
holds a missing-depot item; (iv) a key has a bucket exactly when some kept
item carries it. For a depot key naming an `Object.prototype` member the
source throws a TypeError instead (see the counterexample). -/
theorem spec_C8_amended (arr : List RawItem) (h : noProtoKeys arr) :
    groupByDepot arr = Except.ok (groupFold arr [] []) ∧
    (∀ k, groupLookup (groupFold arr [] []).1 k =
      (if (keptFrom k arr).isEmpty then none else some (keptFrom k arr))) ∧
    (groupFold arr [] []).2 =
      arr.filter (fun item => !(truthy (depotOfN (normalizeDataItem item)))) ∧
    (∀ p ∈ (groupFold arr [] []).1, ∀ n ∈ p.2,
      truthy (depotOfN n) = true ∧ jsKeyString (depotOfN n) = p.1) ∧
    (∀ k, (∃ p ∈ (groupFold arr [] []).1, p.1 = k) ↔ keptFrom k arr ≠ []) := by
  have hlook : ∀ k, groupLookup (groupFold arr [] []).1 k =
      (if (keptFrom k arr).isEmpty then none else some (keptFrom k arr)) := by
    intro k
    have hl := groupFold_lookup k arr [] []
    rw [groupLookup_nil] at hl
    exact hl
  refine ⟨groupGo_eq_fold arr [] [] h, hlook, ?_, ?_, ?_⟩
  · exact groupFold_skipped arr [] []
  · exact groupFold_WF arr [] [] (fun p hp => absurd hp (List.not_mem_nil p))
  · intro k
    have hiff : (groupLookup (groupFold arr [] []).1 k).isSome = true ↔
        ∃ p ∈ (groupFold arr [] []).1, p.1 = k := by
      simp [groupLookup, List.find?_isSome]
    constructor
    · intro hex
      have hs := hiff.mpr hex
      rw [hlook k] at hs
      by_cases hk : keptFrom k arr = []
      · rw [hk] at hs
        simp at hs
      · exact hk
    · intro hne
      apply hiff.mp
      rw [hlook k]
      have hfalse : (keptFrom k arr).isEmpty = false := by
        cases hkept : keptFrom k arr with
        | nil => exact absurd hkept hne
        | cons a l => rfl
      rw [if_neg (by simp [hfalse])]
      rfl

/-- Four raw items: two for depot A (one with a wrapped release-order
number), one missing the depot key, one with a wrapped depot B. -/
def c8Arr : List RawItem :=
  [[("DEPOT", JsVal.str "A"), ("releaseOrderNumber", JsVal.obj [("v", JsVal.str "RO1")])],
   [("releaseOrderNumber", JsVal.str "RO2")],
   [("DEPOT", JsVal.obj [("v", JsVal.str "B")])],
   [("DEPOT", JsVal.str "A"), ("X", JsVal.num 3)]]

/-- Witness for C8: on ordinary depot keys `groupByDepot` returns the pure
grouping without throwing; depot A holds its two normalized items in input
order, the depot-less item is the one skipped item, and depot B has a
bucket. -/
theorem spec_C8_witness :
    groupByDepot c8Arr =
      Except.ok
        ([("A", [[("DEPOT", JsVal.str "A"), ("releaseOrderNumber", JsVal.str "RO1")],
                 [("DEPOT", JsVal.str "A"), ("X", JsVal.num 3)]]),
          ("B", [[("DEPOT", JsVal.str "B")]])],
         [[("releaseOrderNumber", JsVal.str "RO2")]]) ∧
    groupLookup (groupFold c8Arr [] []).1 "A" =
      some [[("DEPOT", JsVal.str "A"), ("releaseOrderNumber", JsVal.str "RO1")],
            [("DEPOT", JsVal.str "A"), ("X", JsVal.num 3)]] ∧
    (groupFold c8Arr [] []).2 = [[("releaseOrderNumber", JsVal.str "RO2")]] ∧
    (∃ p ∈ (groupFold c8Arr [] []).1, p.1 = "B") := by
  have h := spec_C8_amended c8Arr (by decide)
  refine ⟨h.1.trans (by rfl), (h.2.1 "A").trans (by rfl), h.2.2.1.trans (by rfl),
    (h.2.2.2.2 "B").mpr ?_⟩
  have hkept : keptFrom "B" c8Arr = [[("DEPOT", JsVal.str "B")]] := rfl
  rw [hkept]
  exact List.cons_ne_nil _ _

end ERO
